import Mathlib

/-!
# Verification of the spyne-car-app-backend access-scoped record store

Shallow embedding of the two route modules of the repository:

* `src/routes/authRoutes.js` — signup/login (the Identity Service);
* the car routes module (`src/unnamed/part_000` / `part_001`) — the
  ownership-scoped CRUD and search operations over car records.

The MongoDB document store is modelled as a list of documents; `find`,
`findById`, `findOneAndUpdate` and `findOneAndDelete` are embedded by their
documented semantics (filter, first-match lookup, first-match update and
first-match delete).  The Mongoose `Car` model file itself
(`../models/car`) is not among the sources; its field set and required
fields are taken from the data-model section of the specification and from
the swagger schema embedded in the routes file (title, description, tags,
images, userId).
-/

namespace SpyneCar

/-- A car document, with the fields of the `Car` swagger schema in the
routes file: id, title, description, tags, images, userId. -/
structure Car where
  id : String
  title : String
  description : String
  tags : List String
  images : List String
  userId : String
deriving Repr, DecidableEq

/-- The document store for cars: a list of documents in store-native order. -/
abbrev CarStore := List Car

/-- The dynamic-shape request body of create/update: each field may be
present or absent in the multipart form (`req.body` is spread as-is into
the document / update document, so any of the writable schema fields may
appear, including `userId`). -/
structure CarBody where
  title : Option String
  description : Option String
  tags : Option (List String)
  userId : Option String
deriving Repr, DecidableEq

/-! ## Create (POST /cars/create)

`Car.create({ ...req.body, images, userId: req.userId })`: the `images`
and `userId` keys are spread *after* `req.body`, so the stored owner is
always the id of the authenticated caller and the stored images are always the
paths of the uploaded files, whatever the body contains.  Required-field
validation (title, description, tags) is enforced by the Mongoose model,
which is not among the sources; per the data model of the specification these
three fields are required, so creation fails (400) when one is absent. -/
def carCreate (body : CarBody) (files : List String) (caller : String)
    (newId : String) (store : CarStore) : CarStore × Option Car :=
  match body.title, body.description, body.tags with
  | some t, some d, some tg =>
      let c : Car :=
        { id := newId, title := t, description := d, tags := tg,
          images := files, userId := caller }
      (store ++ [c], some c)
  | _, _, _ => (store, none)

/-! ## List (GET /cars/list) -/

/-- Embeds `Car.find({ userId: req.userId })`. -/
def carList (caller : String) (store : CarStore) : CarStore :=
  store.filter (fun c => c.userId == caller)

/-! ## Search (GET /cars/search)

`Car.find({ userId, $or: [{title: new RegExp(keyword, i-flag)}, …] })`.
The keyword is passed to `new RegExp` unescaped, so it is interpreted as a
case-insensitive JavaScript regular expression, not as a literal string.
We embed the regex fragment the proofs need: every character is a literal
except `.`, which matches any single character; matching is unanchored
(`RegExp.test` semantics: the pattern must match at some position).  An
absent keyword (`req.query.keyword === undefined`) yields the empty
pattern, which matches every string. -/

/-- Anchored match of the pattern at the head of the string, pattern
characters case-insensitive, `.` matching any character. -/
def matchHere : List Char → List Char → Bool
  | [], _ => true
  | _ :: _, [] => false
  | p :: ps, c :: cs => (p == '.' || p.toLower == c.toLower) && matchHere ps cs

/-- Unanchored regex test: the pattern matches at some position. -/
def reTest (pat : List Char) : List Char → Bool
  | [] => matchHere pat []
  | c :: cs => matchHere pat (c :: cs) || reTest pat cs

/-- One `$or` arm for a string field. -/
def fieldMatches (pat : String) (s : String) : Bool :=
  reTest pat.data s.data

/-- The `$or` condition of the search query: a regex condition on an array
field (`tags`) holds when some element matches. -/
def carMatches (pat : String) (c : Car) : Bool :=
  fieldMatches pat c.title || fieldMatches pat c.description
    || c.tags.any (fieldMatches pat)

/-- GET /cars/search: ownership filter conjoined with the `$or` regex
condition; an absent keyword becomes the empty pattern. -/
def carSearch (keyword : Option String) (caller : String) (store : CarStore) :
    CarStore :=
  store.filter (fun c => c.userId == caller && carMatches (keyword.getD "") c)

/-! ## Detail (GET /cars/detail/:id)

`Car.findById(id)` (first document with that `_id`, unscoped), then
`if (!car || car.userId.toString() !== req.userId) → 404 Car-not-found`.
Both the missing-record case and the foreign-owner case produce the same
404 response. -/
def carDetail (i : String) (caller : String) (store : CarStore) :
    Except (Nat × String) Car :=
  match store.find? (fun c => c.id == i) with
  | none => .error (404, "Car not found")
  | some c =>
      if c.userId == caller then .ok c else .error (404, "Car not found")

/-! ## Update (PUT /cars/update/:id) -/

/-- The update document `{ ...req.body, ...(images.length && { images }) }`
applied as a `$set`: provided body fields replace the stored ones,
`images` is replaced only when at least one file was uploaded. -/
def applyUpdate (body : CarBody) (files : List String) (c : Car) : Car :=
  { c with
    title := body.title.getD c.title
    description := body.description.getD c.description
    tags := body.tags.getD c.tags
    userId := body.userId.getD c.userId
    images := if files.isEmpty then c.images else files }

/-- The `findOneAndUpdate` semantics: update the first document satisfying the
filter and (with `new: true`) return the updated document; when no
document matches, leave the store unchanged and return `null`. -/
def updateFirst (p : Car → Bool) (f : Car → Car) :
    CarStore → CarStore × Option Car
  | [] => ([], none)
  | c :: cs =>
      if p c then (f c :: cs, some (f c))
      else
        let r := updateFirst p f cs
        (c :: r.1, r.2)

/-- PUT /cars/update/:id: `findOneAndUpdate({_id, userId}, updateDoc,
{new: true})`, responded with status 200 whether or not a document
matched (`res.json(null)` when none did). -/
def carUpdate (i : String) (body : CarBody) (files : List String)
    (caller : String) (store : CarStore) : CarStore × Option Car :=
  updateFirst (fun c => c.id == i && c.userId == caller)
    (applyUpdate body files) store

/-! ## Delete (DELETE /cars/delete/:id) -/

/-- The `findOneAndDelete` semantics: remove the first document satisfying the
filter; removal of nothing when no document matches. -/
def deleteFirst (p : Car → Bool) : CarStore → CarStore
  | [] => []
  | c :: cs => if p c then cs else c :: deleteFirst p cs

/-- DELETE /cars/delete/:id: `findOneAndDelete({_id, userId})` followed
unconditionally by a `200 Car-deleted` confirmation. -/
def carDelete (i : String) (caller : String) (store : CarStore) :
    CarStore × Nat × String :=
  (deleteFirst (fun c => c.id == i && c.userId == caller) store,
   200, "Car deleted")

/-! ## Identity service (src/routes/authRoutes.js) -/

/-- A user document: username and the bcrypt hash stored in `password`. -/
structure User where
  id : String
  username : String
  password : String
deriving Repr, DecidableEq

/-- The token issued by `jwt.sign({ id: user._id }, process.env.JWT_SECRET,
{ expiresIn: 30d })`, modelled through the signing-service
boundary `sign(payload, secret, ttl) → token`: the payload carries exactly
the account identifier, the signing key is the server secret, and the
time-to-live is 30 days. -/
structure Token where
  payloadId : String
  secret : String
  expiresInSeconds : Nat
deriving Repr, DecidableEq

/-- Thirty days, the `expiresIn: 30d` option, in seconds. -/
def thirtyDaysSeconds : Nat := 30 * 24 * 60 * 60

/-- Outcome of POST /users/login: 200 with a token, or an error status
with a message. -/
inductive LoginResult where
  | ok (status : Nat) (token : Token)
  | err (status : Nat) (message : String)
deriving Repr, DecidableEq

/-- POST /users/login: `User.findOne({username})`; absent user or failed
`bcrypt.compare` both answer the same `401 Invalid-credentials` response; on success a
token is signed as above.  `bcryptCompare pw hash` abstracts
`bcrypt.compare(pw, hash)`. -/
def login (bcryptCompare : String → String → Bool) (jwtSecret : String)
    (username password : String) (users : List User) : LoginResult :=
  match users.find? (fun u => u.username == username) with
  | none => .err 401 "Invalid credentials"
  | some u =>
      if bcryptCompare password u.password then
        .ok 200 { payloadId := u.id, secret := jwtSecret,
                  expiresInSeconds := thirtyDaysSeconds }
      else .err 401 "Invalid credentials"

/-! ## Helper lemmas -/

/-- The empty pattern matches every string. -/
theorem reTest_nil (s : List Char) : reTest [] s = true := by
  induction s with
  | nil => rfl
  | cons c cs ih => simp [reTest, matchHere]

/-- When no document satisfies the filter, `findOneAndUpdate` leaves the
store unchanged and returns `null`. -/
theorem updateFirst_eq_of_no_match (p : Car → Bool) (f : Car → Car) :
    ∀ l : CarStore, (∀ c ∈ l, p c = false) → updateFirst p f l = (l, none) := by
  intro l
  induction l with
  | nil => intro _; rfl
  | cons c cs ih =>
      intro h
      have hc : p c = false := h c (List.mem_cons_self c cs)
      have hcs := ih (fun x hx => h x (List.mem_cons_of_mem c hx))
      simp [updateFirst, hc, hcs]

/-! ## Claim theorems -/

/-- C5: search with an absent keyword and search with an empty keyword both
return exactly the records the list operation returns for the caller — every
record owned by the caller (empty-pattern matches everything). -/
theorem search_empty_keyword_matches_everything (caller : String)
    (store : CarStore) :
    carSearch none caller store = carList caller store ∧
    carSearch (some "") caller store = carList caller store := by
  constructor <;>
  · unfold carSearch carList
    apply List.filter_congr
    intro c _
    simp [carMatches, fieldMatches, reTest_nil]

/-- C6: when no stored record matches both the requested id and the caller
as owner, update leaves the store unchanged and returns the null result
(responded as HTTP 200), not an error. -/
theorem update_no_match_is_noop (i : String) (body : CarBody)
    (files : List String) (caller : String) (store : CarStore)
    (h : ∀ c ∈ store, ¬(c.id = i ∧ c.userId = caller)) :
    carUpdate i body files caller store = (store, none) := by
  unfold carUpdate
  apply updateFirst_eq_of_no_match
  intro c hc
  have hnc := h c hc
  by_cases h1 : c.id = i
  · by_cases h2 : c.userId = caller
    · exact absurd ⟨h1, h2⟩ hnc
    · simp [h2]
  · simp [h1]

/-- Witness for C6 at a concrete input: the store holds one car owned by
alice; an update addressed to that id by bob changes nothing and yields
null. -/
theorem update_no_match_is_noop_witness :
    carUpdate "c1"
        { title := some "t2", description := none, tags := none,
          userId := none } ["img2"] "bob"
        [{ id := "c1", title := "t", description := "d", tags := [],
           images := [], userId := "alice" }] =
      ([{ id := "c1", title := "t", description := "d", tags := [],
          images := [], userId := "alice" }], none) :=
  update_no_match_is_noop "c1" _ _ "bob" _ (by decide)

/-- When `findOneAndUpdate` returns a document, that document is the image
under the update of some stored document satisfying the filter. -/
theorem updateFirst_eq_some (p : Car → Bool) (f : Car → Car) :
    ∀ (l : CarStore) (r : Car), (updateFirst p f l).2 = some r →
      ∃ c ∈ l, p c = true ∧ r = f c := by
  intro l
  induction l with
  | nil => intro r hr; simp [updateFirst] at hr
  | cons c cs ih =>
      intro r hr
      by_cases hc : p c = true
      · refine ⟨c, List.mem_cons_self c cs, hc, ?_⟩
        simp [updateFirst, hc] at hr
        exact hr.symm
      · have hc' : p c = false := by
          cases hpc : p c
          · rfl
          · exact absurd hpc hc
        simp [updateFirst, hc'] at hr
        obtain ⟨x, hx, hpx, hfx⟩ := ih r hr
        exact ⟨x, List.mem_cons_of_mem c hx, hpx, hfx⟩

/-- C7: whenever update matches a stored record (same id, caller as owner),
the returned updated record keeps the stored image sequence when no files
were uploaded, carries exactly the uploaded file references when at least
one was, and has each scalar field replaced when provided in the body and
kept otherwise. -/
theorem update_frame_effect (i : String) (body : CarBody)
    (files : List String) (caller : String) (store : CarStore) (u : Car)
    (h : (carUpdate i body files caller store).2 = some u) :
    ∃ c ∈ store, c.id = i ∧ c.userId = caller ∧
      (files = [] → u.images = c.images) ∧
      (files ≠ [] → u.images = files) ∧
      u.title = body.title.getD c.title ∧
      u.description = body.description.getD c.description ∧
      u.tags = body.tags.getD c.tags := by
  obtain ⟨c, hmem, hp, hu⟩ := updateFirst_eq_some _ _ store u h
  have hid : c.id = i := by
    have := (Bool.and_eq_true _ _).mp hp
    exact eq_of_beq this.1
  have hown : c.userId = caller := by
    have := (Bool.and_eq_true _ _).mp hp
    exact eq_of_beq this.2
  subst hu
  refine ⟨c, hmem, hid, hown, ?_, ?_, ?_, ?_, ?_⟩
  · intro hf; simp [applyUpdate, hf]
  · intro hf; simp [applyUpdate, List.isEmpty_iff, hf]
  · simp [applyUpdate]
  · simp [applyUpdate]
  · simp [applyUpdate]

/-- Witness for C7 at a concrete input: updating the title of an owned car
with no uploaded files keeps its two stored images. -/
theorem update_frame_effect_witness :
    ∃ c ∈ ([{ id := "c1", title := "t", description := "d", tags := ["x"],
              images := ["i1", "i2"], userId := "alice" }] : CarStore),
      c.id = "c1" ∧ c.userId = "alice" ∧
      (([] : List String) = [] →
        ({ id := "c1", title := "t2", description := "d", tags := ["x"],
           images := ["i1", "i2"], userId := "alice" } : Car).images = c.images) ∧
      (([] : List String) ≠ [] →
        ({ id := "c1", title := "t2", description := "d", tags := ["x"],
           images := ["i1", "i2"], userId := "alice" } : Car).images = []) ∧
      ({ id := "c1", title := "t2", description := "d", tags := ["x"],
         images := ["i1", "i2"], userId := "alice" } : Car).title =
        (some "t2").getD c.title ∧
      ({ id := "c1", title := "t2", description := "d", tags := ["x"],
         images := ["i1", "i2"], userId := "alice" } : Car).description =
        (none : Option String).getD c.description ∧
      ({ id := "c1", title := "t2", description := "d", tags := ["x"],
         images := ["i1", "i2"], userId := "alice" } : Car).tags =
        (none : Option (List String)).getD c.tags :=
  update_frame_effect "c1"
    { title := some "t2", description := none, tags := none, userId := none }
    [] "alice" _ _ (by decide)

/-- When no document satisfies the filter, `findOneAndDelete` leaves the
store unchanged. -/
theorem deleteFirst_eq_of_no_match (p : Car → Bool) :
    ∀ l : CarStore, (∀ c ∈ l, p c = false) → deleteFirst p l = l := by
  intro l
  induction l with
  | nil => intro _; rfl
  | cons c cs ih =>
      intro h
      have hc : p c = false := h c (List.mem_cons_self c cs)
      have hcs := ih (fun x hx => h x (List.mem_cons_of_mem c hx))
      simp [deleteFirst, hc, hcs]

/-- When at most one stored document satisfies the filter (the `_id` field
is unique in the store), no document of the store left by `findOneAndDelete`
satisfies it. -/
theorem deleteFirst_no_match_left (p : Car → Bool) :
    ∀ l : CarStore, l.countP p ≤ 1 → ∀ c ∈ deleteFirst p l, p c = false := by
  intro l
  induction l with
  | nil => intro _ c hc; simp [deleteFirst] at hc
  | cons a as ih =>
      intro h c hc
      cases hpa : p a with
      | true =>
          simp [deleteFirst, hpa] at hc
          have hcount : as.countP p + 1 ≤ 1 := by
            rw [← List.countP_cons_of_pos p as hpa]
            exact h
          have hz : as.countP p = 0 := by omega
          exact Bool.eq_false_iff.mpr (List.countP_eq_zero.mp hz c hc)
      | false =>
          simp [deleteFirst, hpa] at hc
          rcases hc with hc | hc
          · rw [hc]; exact hpa
          · have hle : as.countP p ≤ 1 := by
              rw [← List.countP_cons_of_neg p as (show ¬(p a = true) by simp [hpa])]
              exact h
            exact ih hle c hc

/-- C8: delete answers the 200 Car-deleted confirmation whether or not any
record matches, does so again on an immediate second delete of the same id,
and after each of the two calls the list operation for the caller contains
no record with that id (the store is assumed to hold at most one record
with the given id and owner, as the unique `_id` index guarantees). -/
theorem delete_idempotent_success (i : String) (caller : String)
    (store : CarStore)
    (h : store.countP (fun c => c.id == i && c.userId == caller) ≤ 1) :
    (carDelete i caller store).2 = (200, "Car deleted") ∧
    (carDelete i caller (carDelete i caller store).1).2 =
      (200, "Car deleted") ∧
    (∀ c ∈ carList caller (carDelete i caller store).1, c.id ≠ i) ∧
    (∀ c ∈ carList caller
        (carDelete i caller (carDelete i caller store).1).1, c.id ≠ i) := by
  have hleft := deleteFirst_no_match_left
    (fun c => c.id == i && c.userId == caller) store h
  have hfix : deleteFirst (fun c => c.id == i && c.userId == caller)
      (deleteFirst (fun c => c.id == i && c.userId == caller) store) =
      deleteFirst (fun c => c.id == i && c.userId == caller) store :=
    deleteFirst_eq_of_no_match _ _ hleft
  have hmain : ∀ c ∈ carList caller
      (deleteFirst (fun c => c.id == i && c.userId == caller) store),
      c.id ≠ i := by
    intro c hc hci
    have hmem := (List.mem_filter.mp hc).1
    have hown : (c.userId == caller) = true := (List.mem_filter.mp hc).2
    have hfalse : (c.id == i && c.userId == caller) = false := hleft c hmem
    rw [hci] at hfalse
    simp [hown] at hfalse
  refine ⟨rfl, rfl, hmain, ?_⟩
  intro c hc
  apply hmain c
  simpa [carDelete, hfix] using hc

/-- Witness for C8 at a concrete input: one car owned by alice, deleted
twice by alice. -/
theorem delete_idempotent_success_witness :
    (carDelete "c1" "alice"
        [{ id := "c1", title := "t", description := "d", tags := [],
           images := [], userId := "alice" }]).2 = (200, "Car deleted") ∧
    (carDelete "c1" "alice"
        (carDelete "c1" "alice"
          [{ id := "c1", title := "t", description := "d", tags := [],
             images := [], userId := "alice" }]).1).2 =
      (200, "Car deleted") ∧
    (∀ c ∈ carList "alice"
        (carDelete "c1" "alice"
          [{ id := "c1", title := "t", description := "d", tags := [],
             images := [], userId := "alice" }]).1, c.id ≠ "c1") ∧
    (∀ c ∈ carList "alice"
        (carDelete "c1" "alice"
          (carDelete "c1" "alice"
            [{ id := "c1", title := "t", description := "d", tags := [],
               images := [], userId := "alice" }]).1).1, c.id ≠ "c1") :=
  delete_idempotent_success "c1" "alice" _ (by decide)

/-- With pairwise-distinct ids (the unique `_id` index), `findById` returns
the stored document with the requested id. -/
theorem find_id_of_nodup (C : Car) :
    ∀ store : CarStore, (store.map Car.id).Nodup → C ∈ store →
      store.find? (fun c => c.id == C.id) = some C := by
  intro store
  induction store with
  | nil => intro _ hmem; simp at hmem
  | cons a as ih =>
      intro hnd hmem
      have hnd1 : a.id ∉ as.map Car.id := (List.nodup_cons.mp hnd).1
      have hnd2 : (as.map Car.id).Nodup := (List.nodup_cons.mp hnd).2
      rcases List.mem_cons.mp hmem with hC | hC
      · rw [← hC]
        simp [List.find?]
      · have hne : (a.id == C.id) = false := by
          apply beq_eq_false_iff_ne.mpr
          intro heq
          exact hnd1 (heq ▸ List.mem_map_of_mem Car.id hC)
        simp [List.find?, hne]
        exact ih hnd2 hC

/-- C2: with pairwise-distinct ids, for a stored car C and a caller U other
than its owner, detail of C answers the same 404 Car-not-found error that a
missing record answers, and C never appears in the list operation of U. -/
theorem detail_cross_owner_not_found (store : CarStore) (C : Car) (U : String)
    (hnd : (store.map Car.id).Nodup) (hmem : C ∈ store) (hown : C.userId ≠ U) :
    carDetail C.id U store = .error (404, "Car not found") ∧
    C ∉ carList U store := by
  constructor
  · unfold carDetail
    rw [find_id_of_nodup C store hnd hmem]
    simp [hown]
  · intro hc
    have hfil : (C.userId == U) = true := (List.mem_filter.mp hc).2
    exact hown (by simpa using hfil)

/-- Witness for C2 at a concrete input: a car owned by alice, queried by
bob. -/
theorem detail_cross_owner_not_found_witness :
    carDetail "c1" "bob"
        [{ id := "c1", title := "t", description := "d", tags := [],
           images := [], userId := "alice" }] =
      .error (404, "Car not found") ∧
    ({ id := "c1", title := "t", description := "d", tags := [],
       images := [], userId := "alice" } : Car) ∉
      carList "bob"
        [{ id := "c1", title := "t", description := "d", tags := [],
           images := [], userId := "alice" }] :=
  detail_cross_owner_not_found _
    { id := "c1", title := "t", description := "d", tags := [],
      images := [], userId := "alice" } "bob"
    (by decide) (by decide) (by decide)

/-- The owner-scoped single lookup that the update and delete handlers use
as a filter, expressed as a detail-style operation: one store query on both
id and owner, a miss answered with the 404 Car-not-found error. -/
def carDetailScoped (i : String) (caller : String) (store : CarStore) :
    Except (Nat × String) Car :=
  match store.find? (fun c => c.id == i && c.userId == caller) with
  | none => .error (404, "Car not found")
  | some c => .ok c

/-- C10: with pairwise-distinct ids, the fetch-then-check style of the
detail handler (unscoped `findById`, then an owner-equality check mapping a
mismatch to 404) is observationally equivalent to the owner-scoped
single-lookup style that update and delete use. -/
theorem detail_refines_scoped_lookup (i : String) (caller : String)
    (store : CarStore) (hnd : (store.map Car.id).Nodup) :
    carDetail i caller store = carDetailScoped i caller store := by
  induction store with
  | nil => rfl
  | cons a as ih =>
      have hnd1 : a.id ∉ as.map Car.id := (List.nodup_cons.mp hnd).1
      have hnd2 : (as.map Car.id).Nodup := (List.nodup_cons.mp hnd).2
      cases hid : (a.id == i) with
      | true =>
          cases hu : (a.userId == caller) with
          | true => simp [carDetail, carDetailScoped, List.find?, hid, hu]
          | false =>
              have htail : as.find?
                  (fun c => c.id == i && c.userId == caller) = none := by
                apply List.find?_eq_none.mpr
                intro c hc
                have hne : (c.id == i) = false := by
                  apply beq_eq_false_iff_ne.mpr
                  intro heq
                  have : a.id = i := by simpa using hid
                  exact hnd1 ((this.trans heq.symm) ▸
                    List.mem_map_of_mem Car.id hc)
                simp [hne]
              simp [carDetail, carDetailScoped, List.find?, hid, hu, htail]
      | false =>
          have hone := ih hnd2
          simp only [carDetail, carDetailScoped, List.find?, hid,
            Bool.false_and, cond_false] at hone ⊢
          exact hone

/-- Witness for C10 at a concrete input: a two-car store with distinct
ids. -/
theorem detail_refines_scoped_lookup_witness :
    carDetail "c2" "bob"
        [{ id := "c1", title := "t", description := "d", tags := [],
           images := [], userId := "alice" },
         { id := "c2", title := "s", description := "e", tags := [],
           images := [], userId := "bob" }] =
      carDetailScoped "c2" "bob"
        [{ id := "c1", title := "t", description := "d", tags := [],
           images := [], userId := "alice" },
         { id := "c2", title := "s", description := "e", tags := [],
           images := [], userId := "bob" }] :=
  detail_refines_scoped_lookup "c2" "bob" _ (by decide)

/-- C3: a login with the username of a stored account but a password its
stored hash rejects, and a login under a username with no account, answer
the very same result: the 401 Invalid-credentials error, so the response
does not reveal whether the username exists. -/
theorem login_uniform_invalid_credentials (cmp : String → String → Bool)
    (secret : String) (users : List User) (n1 pw1 n2 pw2 : String) (u : User)
    (h1 : users.find? (fun v => v.username == n1) = some u)
    (h2 : cmp pw1 u.password = false)
    (h3 : users.find? (fun v => v.username == n2) = none) :
    login cmp secret n1 pw1 users = .err 401 "Invalid credentials" ∧
    login cmp secret n2 pw2 users = login cmp secret n1 pw1 users := by
  simp [login, h1, h3, h2]

/-- Witness for C3 at a concrete input: one account alice whose stored hash
rejects the supplied password, and the absent username bob. -/
theorem login_uniform_invalid_credentials_witness :
    login (fun pw h => pw == h) "secret" "alice" "wrong"
        [{ id := "u1", username := "alice", password := "pw1" }] =
      .err 401 "Invalid credentials" ∧
    login (fun pw h => pw == h) "secret" "bob" "anything"
        [{ id := "u1", username := "alice", password := "pw1" }] =
      login (fun pw h => pw == h) "secret" "alice" "wrong"
        [{ id := "u1", username := "alice", password := "pw1" }] :=
  login_uniform_invalid_credentials (fun pw h => pw == h) "secret"
    [{ id := "u1", username := "alice", password := "pw1" }]
    "alice" "wrong" "bob" "anything"
    { id := "u1", username := "alice", password := "pw1" }
    (by decide) (by decide) (by decide)

/-- C9: a successful login issues exactly the token signed with the server
secret whose payload is the identifier of the authenticated account and
whose time-to-live is 30 days — nothing else is in the payload. -/
theorem login_token_payload (cmp : String → String → Bool) (secret : String)
    (users : List User) (n pw : String) (u : User)
    (h1 : users.find? (fun v => v.username == n) = some u)
    (h2 : cmp pw u.password = true) :
    login cmp secret n pw users =
      .ok 200 { payloadId := u.id, secret := secret,
                expiresInSeconds := 30 * 24 * 60 * 60 } := by
  simp [login, h1, h2, thirtyDaysSeconds]

/-- Witness for C9 at a concrete input: alice logs in with the accepted
password. -/
theorem login_token_payload_witness :
    login (fun pw h => pw == h) "secret" "alice" "pw1"
        [{ id := "u1", username := "alice", password := "pw1" }] =
      .ok 200 { payloadId := "u1", secret := "secret",
                expiresInSeconds := 30 * 24 * 60 * 60 } :=
  login_token_payload (fun pw h => pw == h) "secret"
    [{ id := "u1", username := "alice", password := "pw1" }] "alice" "pw1"
    { id := "u1", username := "alice", password := "pw1" }
    (by decide) (by decide)

/-- C1, evaluated at the failing input: creation does stamp the owner from
the authenticated caller (a `userId` field in the creation body is
overridden, first conjunct), but an update whose multipart body carries a
`userId` field reassigns the owner, because the handler spreads `req.body`
into the update document — here the rightful owner alice updates her own
record with a body containing `userId: mallory` and the stored owner read
back afterwards is mallory, contradicting the never-reassigned
invariant. -/
theorem update_body_reassigns_owner :
    (carCreate
        { title := some "t", description := some "d", tags := some [],
          userId := some "mallory" } [] "alice" "c1" []).1 =
      [{ id := "c1", title := "t", description := "d", tags := [],
         images := [], userId := "alice" }] ∧
    ((carUpdate "c1"
        { title := none, description := none, tags := none,
          userId := some "mallory" } [] "alice"
        [{ id := "c1", title := "t", description := "d", tags := [],
           images := [], userId := "alice" }]).1).map Car.userId =
      ["mallory"] := by
  constructor
  · rfl
  · rfl

/-! ## The literal-substring reading of search (the specification wording)

The following definitions follow the wording of the specification — keyword
contained as a case-insensitive literal substring of title, description, or
some tag — to be compared with `carSearch`, which embeds the code (an
unescaped case-insensitive regular expression). -/

/-- Case-insensitive check that the needle occurs at the head of the
string. -/
def frontCI : List Char → List Char → Bool
  | [], _ => true
  | _ :: _, [] => false
  | p :: ps, c :: cs => (p.toLower == c.toLower) && frontCI ps cs

/-- Case-insensitive literal substring test: the needle occurs at some
position. -/
def subCI (pat : List Char) : List Char → Bool
  | [] => frontCI pat []
  | c :: cs => frontCI pat (c :: cs) || subCI pat cs

/-- Case-insensitive literal substring test over strings. -/
def substrCI (needle hay : String) : Bool :=
  subCI needle.data hay.data

/-- Search as the specification words it: records owned by the caller whose
title, description, or some tag contains the keyword as a case-insensitive
literal substring. -/
def carSearchLiteral (keyword : Option String) (caller : String)
    (store : CarStore) : CarStore :=
  store.filter (fun c => c.userId == caller &&
    (substrCI (keyword.getD "") c.title
      || substrCI (keyword.getD "") c.description
      || c.tags.any (substrCI (keyword.getD ""))))

/-- The metacharacters of JavaScript regular expressions; a keyword
containing none of them is matched literally by the regex engine. -/
def jsRegexMeta : List Char :=
  ['\\', '^', '$', '.', '|', '?', '*', '+', '(', ')', '[', ']',
   '\x7b', '\x7d']

/-- On dot-free patterns the anchored regex match is the case-insensitive
literal head check. -/
theorem matchHere_eq_frontCI (pat : List Char) (hp : ∀ c ∈ pat, c ≠ '.') :
    ∀ s : List Char, matchHere pat s = frontCI pat s := by
  induction pat with
  | nil => intro s; cases s <;> rfl
  | cons p ps ih =>
      intro s
      cases s with
      | nil => rfl
      | cons c cs =>
          have hpd : (p == '.') = false :=
            beq_eq_false_iff_ne.mpr (hp p (List.mem_cons_self p ps))
          have iht := ih (fun x hx => hp x (List.mem_cons_of_mem p hx)) cs
          simp [matchHere, frontCI, hpd, iht]

/-- On dot-free patterns the unanchored regex test is the case-insensitive
literal substring test. -/
theorem reTest_eq_subCI (pat : List Char) (hp : ∀ c ∈ pat, c ≠ '.') :
    ∀ s : List Char, reTest pat s = subCI pat s := by
  intro s
  induction s with
  | nil => simp [reTest, subCI, matchHere_eq_frontCI pat hp]
  | cons c cs ih => simp [reTest, subCI, matchHere_eq_frontCI pat hp, ih]

/-- C4 counterexample: searching for the keyword consisting of the single
character `.` returns a record whose three fields contain no `.` at all —
the keyword is interpreted as a regular expression (dot matches any
character), not as a literal substring, so the claimed for-every-keyword
substring semantics fails. -/
theorem search_dot_keyword_counterexample :
    carSearch (some ".") "u"
        [{ id := "c1", title := "a", description := "b", tags := [],
           images := [], userId := "u" }] ≠
      carSearchLiteral (some ".") "u"
        [{ id := "c1", title := "a", description := "b", tags := [],
           images := [], userId := "u" }] := by
  decide

/-- C4 amended: for every keyword containing no JavaScript regex
metacharacter, search returns exactly the records owned by the caller
whose title, description, or some tag contains the keyword as a
case-insensitive literal substring; keywords carrying metacharacters are
instead interpreted as regular-expression syntax. -/
theorem search_literal_on_meta_free_keywords (keyword : String)
    (caller : String) (store : CarStore)
    (h : ∀ c ∈ keyword.data, c ∉ jsRegexMeta) :
    carSearch (some keyword) caller store =
      carSearchLiteral (some keyword) caller store := by
  have hdot : ∀ c ∈ keyword.data, c ≠ '.' := by
    intro c hc heq
    exact h c hc (by rw [heq]; decide)
  have hfun : fieldMatches keyword = substrCI keyword :=
    funext (fun s => by simp [fieldMatches, substrCI, reTest_eq_subCI _ hdot])
  unfold carSearch carSearchLiteral
  apply List.filter_congr
  intro c _
  simp [carMatches, hfun]

/-- Witness for the amended C4 at a concrete input: the metacharacter-free
keyword sedan finds the record tagged sedan for its owner. -/
theorem search_literal_on_meta_free_keywords_witness :
    (∀ c ∈ "sedan".data, c ∉ jsRegexMeta) ∧
    carSearch (some "sedan") "alice"
        [{ id := "c1", title := "Civic", description := "clean",
           tags := ["sedan"], images := [], userId := "alice" }] =
      carSearchLiteral (some "sedan") "alice"
        [{ id := "c1", title := "Civic", description := "clean",
           tags := ["sedan"], images := [], userId := "alice" }] :=
  ⟨by decide,
   search_literal_on_meta_free_keywords "sedan" "alice" _ (by decide)⟩

end SpyneCar
